import Mathlib

/-!
Shallow embedding of the weather-dashboard front end
(`src/services/weatherApi.js`, the `Weather` page in `src/unnamed/part_000`).

JavaScript values are embedded as follows: numbers that carry temperatures,
coordinates or probabilities become `Rat`; epoch timestamps and local day
numbers become `Int`; machine-local calendar arithmetic is made explicit by a
fixed timezone-offset parameter `tz` (seconds east of UTC); `undefined` /
absent fields become `Option`; a thrown `Error` becomes `Except.error` with
the message string; `localStorage` is passed in and returned explicitly as the
persisted list.  `Math.round x` is `⌊x + 1/2⌋` (round half toward +∞), which
is exactly the JS semantics on the rationals.
-/

namespace WeatherApp

/-- JS `Math.round`: `Math.round x = ⌊x + 0.5⌋`.  Written on the numerator
and denominator so the kernel can evaluate it (the library addition on `Rat`
is declared irreducible); `jsRound_eq` below proves it equal to `⌊x + 1/2⌋`. -/
def jsRound (x : Rat) : Int := (2 * x.num + x.den) / (2 * (x.den : Int))

/-- JS `<=` on two rationals by cross multiplication (kernel-evaluable;
`ratLe_iff` below proves it is the order on `Rat`). -/
def ratLe (a b : Rat) : Bool := a.num * (b.den : Int) ≤ b.num * (a.den : Int)

/-- JS `Math.min` of two numbers; `jsMin_eq` proves `jsMin = min`. -/
def jsMin (a b : Rat) : Rat := if ratLe a b then a else b

/-- JS `Math.max` of two numbers; `jsMax_eq` proves `jsMax = max`. -/
def jsMax (a b : Rat) : Rat := if ratLe b a then a else b

/-- JS `String.prototype.trim`: strip leading and trailing whitespace
(written on the character list so the kernel can evaluate it). -/
def jsTrim (s : String) : String :=
  String.mk (((s.data.dropWhile Char.isWhitespace).reverse.dropWhile Char.isWhitespace).reverse)

/-! ## Weather Data Client: `searchCities` (src/services/weatherApi.js 45-72)

`const API_KEY = import.meta.env.VITE_OPENWEATHER_API_KEY || ""` makes the
missing-credential case exactly `apiKey = ""`; `ensureApiKey` throws
`"API key is missing"` when `!API_KEY`.  The network interaction
(`requestJson` on the geocoding URL) is abstracted as an explicit
`fetchResult` argument: `Except.error msg` is a `fetch`/HTTP/parse failure
thrown by `requestJson`, `Except.ok data` the decoded JSON list.  The `limit`
parameter only enters the request URL, so it is carried but unused. -/

def API_KEY_ERROR_MESSAGE : String := "API key is missing"

/-- One element of the geocoding response. -/
structure GeoLocation where
  lat : Rat
  lon : Rat
  name : String
  country : String
  state : Option String
deriving DecidableEq, Repr

/-- The normalized city suggestion produced by `searchCities`. -/
structure CityResult where
  lat : Rat
  lon : Rat
  name : String
  country : String
  state : Option String
  displayName : String
deriving DecidableEq, Repr

/-- The `.map((location) => ...)` step of `searchCities`; the template literal
check `location.state ? ... : ""` is JS-falsy, so an empty-string state is
dropped like an absent one. -/
def toCityResult (l : GeoLocation) : CityResult :=
  { lat := l.lat, lon := l.lon, name := l.name, country := l.country, state := l.state,
    displayName :=
      l.name ++ (match l.state with
        | some s => if s = "" then "" else ", " ++ s
        | none => "") ++ ", " ++ l.country }

/-- `searchCities(query, limit)`.  `ensureApiKey()` runs first, outside the
`try`; the 2-character guard (`!query || query.trim().length < 2`) returns
`[]`; the `try/catch` around `requestJson` swallows fetch errors into `[]`. -/
def searchCities (apiKey query : String) (limit : Nat)
    (fetchResult : Except String (List GeoLocation)) : Except String (List CityResult) :=
  if apiKey = "" then Except.error API_KEY_ERROR_MESSAGE
  else if (jsTrim query).length < 2 then Except.ok []
  else
    match fetchResult with
    | Except.ok data => Except.ok (data.map toCityResult)
    | Except.error _ => Except.ok []

/-! ## Favorite cities (src/services/weatherApi.js 197-291)

The persisted `localStorage` document is the explicit `store` argument; each
operation returns the operation result paired with the persisted list after
the call (`throw` happens before `saveFavoriteCities`, so the store is
returned unchanged on error). -/

/-- A stored favorite city (`newCity` shape in `addFavoriteCity`). -/
structure FavCity where
  id : String
  lat : Rat
  lon : Rat
  name : String
  country : String
  state : Option String
  addedAt : String
deriving DecidableEq, Repr

/-- The `cityData` argument of `addFavoriteCity`. -/
structure CityData where
  lat : Rat
  lon : Rat
  name : String
  country : String
  state : Option String
deriving DecidableEq, Repr

/-- `addFavoriteCity(cityData)`.  `newId` and `addedAt` stand for the
generated `Date.now()_random` id and the `new Date().toISOString()`
timestamp. -/
def addFavoriteCity (store : List FavCity) (c : CityData) (newId addedAt : String) :
    Except String FavCity × List FavCity :=
  if store.any (fun x => x.lat = c.lat ∧ x.lon = c.lon) then
    (Except.error "This city is already in your favorites", store)
  else
    let newCity : FavCity :=
      { id := newId, lat := c.lat, lon := c.lon, name := c.name, country := c.country,
        state := c.state, addedAt := addedAt }
    (Except.ok newCity, store ++ [newCity])

/-- `removeFavoriteCity(cityId)`: filters out entries with the given id and
throws (without saving) when the filter removed nothing. -/
def removeFavoriteCity (store : List FavCity) (cityId : String) :
    Except String Unit × List FavCity :=
  let filtered := store.filter (fun c => c.id ≠ cityId)
  if filtered.length = store.length then
    (Except.error "City not found in favorites", store)
  else
    (Except.ok (), filtered)

/-- The favorites invariant: no two stored entries share `(lat, lon)`. -/
def NoDupCoords (l : List FavCity) : Prop :=
  l.Pairwise (fun a b => ¬(a.lat = b.lat ∧ a.lon = b.lon))

/-! ## Search history (`addToSearchHistory`, part_000 lines 532-541) -/

def MAX_HISTORY_ITEMS : Nat := 5

/-- `addToSearchHistory`: remove any prior occurrence of the exact string,
prepend, truncate to `MAX_HISTORY_ITEMS`.  The persisted document equals the
returned list (`localStorage.setItem` writes `newHistory`). -/
def addToSearchHistory (prev : List String) (ident : String) : List String :=
  (ident :: prev.filter (fun s => s ≠ ident)).take MAX_HISTORY_ITEMS

/-! ## Forecast Aggregator (`fiveDayForecast` and `rainChance`, part_000 906-995)

A vendor forecast-list item.  `forecast.main?.temp` and a top-level
`forecast.temp` are both optional (`main.temp` is what the forecast endpoint
delivers; the `|| forecast.temp` fallback exists in the code).
`forecast.weather?.[0]` is represented by an opaque identifier `Option Nat`
(only which entry the icon is taken from matters, never its content).

Local calendar arithmetic: the code calls `new Date(dt*1000).getHours()` and
`setHours(0,0,0,0)`, both in the machine-local timezone; with a fixed offset
`tz` (seconds east of UTC) the local day number and the local hour of a
timestamp are the floor division and remainder below.  The object keyed by
`dayKey` holds one bucket per distinct local day, and the final
`sort((a,b) => a.date - b.date)` orders buckets by their local midnight,
i.e. by the local day number, so the embedding keeps the distinct day numbers
as a strictly sorted list directly (`insertDay`). -/

structure ForecastEntry where
  dt : Int
  mainTemp : Option Rat
  temp : Option Rat
  pop : Option Rat
  weather : Option Nat
deriving DecidableEq, Repr

/-- Local day number of a timestamp: `⌊(dt + tz) / 86400⌋`. -/
def dayOf (f : ForecastEntry) (tz : Int) : Int := (f.dt + tz).ediv 86400

/-- Local hour of day (0-23) of a timestamp. -/
def hourOf (f : ForecastEntry) (tz : Int) : Nat := ((f.dt + tz).emod 86400).toNat / 3600

/-- `Math.abs(forecastHour - 12)`, the distance of an entry from local noon. -/
def ndist (tz : Int) (f : ForecastEntry) : Nat := ((hourOf f tz : Int) - 12).natAbs

/-- The temperature sample an entry contributes:
`const temp = forecast.main?.temp || forecast.temp` — JS `||` falls through on
a main temperature of exactly `0`, and the entry is skipped entirely when the
result is `undefined` (`temp !== undefined`). -/
def tempSample (f : ForecastEntry) : Option Rat :=
  match f.mainTemp with
  | some t => if t = 0 then f.temp else some t
  | none => f.temp

/-- The forecast entries of one local day, in list order. -/
def dayEntries (forecastList : List ForecastEntry) (tz : Int) (d : Int) : List ForecastEntry :=
  forecastList.filter (fun f => dayOf f tz = d)

/-- The `temps` array accumulated for one day bucket. -/
def dayTemps (forecastList : List ForecastEntry) (tz : Int) (d : Int) : List Rat :=
  (dayEntries forecastList tz d).filterMap tempSample

/-- Insert a day number into a strictly sorted list of day numbers, keeping it
strictly sorted (models adding a key to the `dailyData` object: a repeated key
leaves the key set unchanged). -/
def insertDay (d : Int) : List Int → List Int
  | [] => [d]
  | x :: xs =>
    if d < x then d :: x :: xs
    else if d = x then x :: xs
    else x :: insertDay d xs

/-- The distinct local day numbers of the forecast list, ascending (the sorted
key set of `dailyData`). -/
def daysOf (forecastList : List ForecastEntry) (tz : Int) : List Int :=
  forecastList.foldl (fun acc f => insertDay (dayOf f tz) acc) []

/-- The noon-selection fold of one day bucket: the accumulator is the bucket's
`(weather, noonTimeDiff)` pair, `noonTimeDiff` starting at `Infinity`
(modelled by `none`) and strictly improved (`<`). -/
def noonGo (tz : Int) : List ForecastEntry → Option Nat × Option Nat → Option Nat × Option Nat
  | [], acc => acc
  | f :: fs, acc =>
    noonGo tz fs
      (match acc.2 with
        | none => (f.weather, some (ndist tz f))
        | some b => if ndist tz f < b then (f.weather, some (ndist tz f)) else acc)

/-- One entry of the `fiveDayForecast` view model.  `day` is the local day
number (standing for the bucket's `date`, its local midnight); the
presentation-only `index` and locale-dependent `dayName` fields are omitted. -/
structure DayForecast where
  day : Int
  minTemp : Int
  maxTemp : Int
  pop : Int
  weather : Option Nat
deriving DecidableEq, Repr

/-- The final `.map` step of `fiveDayForecast`, computing one output entry
from a day bucket: `Math.round` of `Math.min(...temps)` / `Math.max(...temps)`
(`0` for an empty bucket), the rounded arithmetic mean of the collected
`pop * 100` samples (`0` when there are none, `pop !== undefined` being an
exact undefined test), and the noon-selection result. -/
def mkDay (forecastList : List ForecastEntry) (tz : Int) (d : Int) : DayForecast :=
  let temps := dayTemps forecastList tz d
  let pops := ((dayEntries forecastList tz d).filterMap (fun f => f.pop)).map (fun p => p * 100)
  { day := d
    minTemp := match temps with
      | [] => 0
      | t :: ts => jsRound (ts.foldl jsMin t)
    maxTemp := match temps with
      | [] => 0
      | t :: ts => jsRound (ts.foldl jsMax t)
    pop := match pops with
      | [] => 0
      | _ :: _ => jsRound ((pops.foldl (· + ·) 0) / (pops.length : Rat))
    weather := (noonGo tz (dayEntries forecastList tz d) (none, none)).1 }

/-- `fiveDayForecast` (the spec's `buildFiveDay`): bucket the forecast list by
local calendar day, sort the buckets ascending by date, drop days strictly
before `today` (the local day number of now), keep the first 5, and map each
bucket to its view model. -/
def fiveDayForecast (forecastList : List ForecastEntry) (tz today : Int) : List DayForecast :=
  (((daysOf forecastList tz).filter (fun d => today ≤ d)).take 5).map (mkDay forecastList tz)

/-- The current-conditions record as far as `rainChance` reads it: only the
JS-truthiness of the `rain` field matters (`current.rain` is an object or
`null`). -/
structure CurrentConditions where
  rain : Bool
deriving DecidableEq, Repr

/-- Distance of a forecast entry's timestamp from `now` (in seconds),
`Math.abs(forecast.dt - now)`. -/
def tdist (now : Int) (f : ForecastEntry) : Nat := (f.dt - now).natAbs

/-- The `reduce((closest, forecast) => ...)` over the forecast list with a
`null` seed: keep the running entry whose timestamp is strictly closest to
`now` (first entry wins ties).  Stated generically so the same
first-minimiser characterisation serves the noon selection as well. -/
def runBest {α : Type} (nd : α → Nat) : Option α → List α → Option α
  | acc, [] => acc
  | none, f :: fs => runBest nd (some f) fs
  | some c, f :: fs => runBest nd (some (if nd f < nd c then f else c)) fs

/-- `rainChance`: pick the forecast entry closest in time to `now`; if it has
a `pop`, answer `Math.round(pop * 100)`; otherwise answer `10` when the
current conditions carry a rain object and `0` when not. -/
def rainChance (current : CurrentConditions) (daily : List ForecastEntry) (now : Int) : Int :=
  match runBest (tdist now) none daily with
  | some f =>
    match f.pop with
    | some p => jsRound (p * 100)
    | none => if current.rain then 10 else 0
  | none => if current.rain then 10 else 0

/-! ## Search Controller debounce (`debouncedSearchCities`, part_000 636-660)

The controller state is the single pending debounce timer
(`debounceTimerRef`): `none`, or `some (fireTime, query)`.  A keystroke at
time `t` first cancels any pending timer (`clearTimeout`), then either clears
the suggestions (trimmed query shorter than 2) scheduling nothing, or
schedules a fetch for its query at `t + DEBOUNCE_DELAY`.  `runKeystrokes`
gives the trace semantics over time-stamped keystrokes: a pending timer whose
fire time has been reached before the next keystroke has already fired (its
fetch was issued; `clearTimeout` on it is a no-op), otherwise the keystroke
cancels it and its fetch is never issued; a timer still pending at the end of
the trace eventually fires.  The returned list is every suggestion fetch
actually issued, in order. -/

def DEBOUNCE_DELAY : Nat := 300

/-- One invocation of `debouncedSearchCities` on the pending-timer state. -/
def debouncedSearchCities (t : Nat) (query : String) : Option (Nat × String) :=
  if (jsTrim query).length < 2 then none else some (t + DEBOUNCE_DELAY, query)

/-- Trace semantics: the suggestion fetches issued over a keystroke trace. -/
def runKeystrokes : Option (Nat × String) → List (Nat × String) → List String
  | none, [] => []
  | some (_, pq), [] => [pq]
  | pending, (t, q) :: rest =>
    (match pending with
      | some (ft, pq) => if ft ≤ t then [pq] else []
      | none => []) ++ runKeystrokes (debouncedSearchCities t q) rest

/-- The fetches issued by a keystroke trace started with no pending timer. -/
def suggestionFetches (keys : List (Nat × String)) : List String :=
  runKeystrokes none keys

/-! ## Geolocation Resolver (`handleCurrentLocation`, part_000 788-871)

The browser geolocation device is abstracted as a function from request
options to a result (success with coordinates, or failure with an error).
The loop walks `geolocationAttempts` in order, breaking on the first success
and remembering the last failure; with no position it throws the last failure,
or the generic error when none was captured.  On success the resolved
coordinates are exactly what `getWeatherByCoordinates` is then called with, so
the returned `Except.ok` coordinates are the coordinates of the weather
fetch. -/

structure GeoOptions where
  enableHighAccuracy : Bool
  timeout : Nat
  maximumAge : Nat
deriving DecidableEq, Repr

/-- The two attempt configurations, in order. -/
def geolocationAttempts : List GeoOptions :=
  [{ enableHighAccuracy := false, timeout := 10000, maximumAge := 300000 },
   { enableHighAccuracy := true, timeout := 20000, maximumAge := 0 }]

structure Coords where
  latitude : Rat
  longitude : Rat
deriving DecidableEq, Repr

/-- The `for (const options of geolocationAttempts)` loop: first success wins,
the last failure is remembered. -/
def tryAttempts (env : GeoOptions → Except String Coords) :
    List GeoOptions → Option String → Option Coords × Option String
  | [], last => (none, last)
  | o :: os, last =>
    match env o with
    | Except.ok pos => (some pos, last)
    | Except.error e => tryAttempts env os (some e)

/-- `handleCurrentLocation` reduced to its location-resolution result:
`Except.ok c` means the weather fetch was issued for coordinates `c`. -/
def handleCurrentLocation (env : GeoOptions → Except String Coords) : Except String Coords :=
  match tryAttempts env geolocationAttempts none with
  | (some pos, _) => Except.ok pos
  | (none, some e) => Except.error e
  | (none, none) => Except.error "Unable to determine location after multiple attempts"

/-! ## Helper lemmas for the kernel-evaluable arithmetic -/

/-- `jsRound` is rounding half toward positive infinity. -/
theorem jsRound_eq (x : Rat) : jsRound x = ⌊x + 1/2⌋ := by
  have hd0 : (x.den : Rat) ≠ 0 := Nat.cast_ne_zero.mpr x.den_nz
  have h := Rat.num_div_den x
  rw [div_eq_iff hd0] at h
  have hx : x + 1/2 = ((2 * x.num + (x.den : Int) : Int) : Rat) / ((2 * x.den : Nat) : Rat) := by
    rw [eq_div_iff (by push_cast; positivity)]
    push_cast
    linear_combination (-2 : Rat) * h
  rw [jsRound, hx, Rat.floor_intCast_div_natCast]
  push_cast
  rfl

/-- `ratLe` is the order on `Rat`. -/
theorem ratLe_iff (a b : Rat) : ratLe a b = true ↔ a ≤ b := by
  rw [ratLe, decide_eq_true_eq, Rat.le_def]

/-- `jsMin` is the binary minimum. -/
theorem jsMin_eq (a b : Rat) : jsMin a b = min a b := by
  rw [jsMin, min_def]
  by_cases h : a ≤ b
  · rw [if_pos ((ratLe_iff a b).mpr h), if_pos h]
  · rw [if_neg (fun hc => h ((ratLe_iff a b).mp hc)), if_neg h]

/-- `jsMax` is the binary maximum. -/
theorem jsMax_eq (a b : Rat) : jsMax a b = max a b := by
  rw [jsMax, max_def]
  by_cases h : b ≤ a
  · rw [if_pos ((ratLe_iff b a).mpr h)]
    by_cases hab : a ≤ b
    · rw [if_pos hab]
      exact le_antisymm hab h
    · rw [if_neg hab]
  · rw [if_neg (fun hc => h ((ratLe_iff b a).mp hc)), if_pos (le_of_not_le h)]

/-! ## Projection lemmas for `mkDay` -/

theorem mkDay_day (forecastList : List ForecastEntry) (tz d : Int) :
    (mkDay forecastList tz d).day = d := rfl

theorem mkDay_minTemp (forecastList : List ForecastEntry) (tz d : Int) :
    (mkDay forecastList tz d).minTemp =
      match dayTemps forecastList tz d with
      | [] => 0
      | t :: ts => jsRound (ts.foldl jsMin t) := rfl

theorem mkDay_maxTemp (forecastList : List ForecastEntry) (tz d : Int) :
    (mkDay forecastList tz d).maxTemp =
      match dayTemps forecastList tz d with
      | [] => 0
      | t :: ts => jsRound (ts.foldl jsMax t) := rfl

theorem mkDay_weather (forecastList : List ForecastEntry) (tz d : Int) :
    (mkDay forecastList tz d).weather =
      (noonGo tz (dayEntries forecastList tz d) (none, none)).1 := rfl

/-- Membership in the `fiveDayForecast` output comes from a day number of the
input that is not before `today`. -/
theorem fiveDay_elim {forecastList : List ForecastEntry} {tz today : Int} {o : DayForecast}
    (h : o ∈ fiveDayForecast forecastList tz today) :
    ∃ d, o = mkDay forecastList tz d ∧ d ∈ daysOf forecastList tz ∧ today ≤ d := by
  rw [fiveDayForecast, List.mem_map] at h
  obtain ⟨d, hd, heq⟩ := h
  have hd2 : d ∈ (daysOf forecastList tz).filter (fun d => today ≤ d) :=
    (List.take_sublist 5 _).subset hd
  have hm := List.mem_filter.mp hd2
  exact ⟨d, heq.symm, hm.1, by simpa using hm.2⟩

/-! ## Fold lemmas for `Math.min` / `Math.max` over a day bucket -/

theorem foldl_jsMin_mem : ∀ (ts : List Rat) (t : Rat), ts.foldl jsMin t ∈ t :: ts := by
  intro ts
  induction ts with
  | nil => intro t; exact List.mem_singleton.mpr rfl
  | cons u ts ih =>
    intro t
    rw [List.foldl_cons]
    have h := ih (jsMin t u)
    rcases List.mem_cons.mp h with h1 | h2
    · rw [h1, jsMin_eq]
      rcases min_choice t u with hc | hc <;> rw [hc]
      · exact List.mem_cons_self _ _
      · exact List.mem_cons_of_mem _ (List.mem_cons_self _ _)
    · exact List.mem_cons_of_mem _ (List.mem_cons_of_mem _ h2)

theorem foldl_jsMin_le : ∀ (ts : List Rat) (t : Rat), ∀ x ∈ t :: ts, ts.foldl jsMin t ≤ x := by
  intro ts
  induction ts with
  | nil =>
    intro t x hx
    rw [List.mem_singleton] at hx
    subst hx
    rw [List.foldl_nil]
  | cons u ts ih =>
    intro t x hx
    rw [List.foldl_cons]
    have hmin : ts.foldl jsMin (jsMin t u) ≤ jsMin t u :=
      ih (jsMin t u) _ (List.mem_cons_self _ _)
    rcases List.mem_cons.mp hx with h1 | h2
    · subst h1
      exact le_trans hmin (by rw [jsMin_eq]; exact min_le_left _ _)
    · rcases List.mem_cons.mp h2 with h3 | h4
      · subst h3
        exact le_trans hmin (by rw [jsMin_eq]; exact min_le_right _ _)
      · exact ih (jsMin t u) x (List.mem_cons_of_mem _ h4)

theorem foldl_jsMax_mem : ∀ (ts : List Rat) (t : Rat), ts.foldl jsMax t ∈ t :: ts := by
  intro ts
  induction ts with
  | nil => intro t; exact List.mem_singleton.mpr rfl
  | cons u ts ih =>
    intro t
    rw [List.foldl_cons]
    have h := ih (jsMax t u)
    rcases List.mem_cons.mp h with h1 | h2
    · rw [h1, jsMax_eq]
      rcases max_choice t u with hc | hc <;> rw [hc]
      · exact List.mem_cons_self _ _
      · exact List.mem_cons_of_mem _ (List.mem_cons_self _ _)
    · exact List.mem_cons_of_mem _ (List.mem_cons_of_mem _ h2)

theorem foldl_jsMax_ge : ∀ (ts : List Rat) (t : Rat), ∀ x ∈ t :: ts, x ≤ ts.foldl jsMax t := by
  intro ts
  induction ts with
  | nil =>
    intro t x hx
    rw [List.mem_singleton] at hx
    subst hx
    rw [List.foldl_nil]
  | cons u ts ih =>
    intro t x hx
    rw [List.foldl_cons]
    have hmax : jsMax t u ≤ ts.foldl jsMax (jsMax t u) :=
      ih (jsMax t u) _ (List.mem_cons_self _ _)
    rcases List.mem_cons.mp hx with h1 | h2
    · subst h1
      exact le_trans (by rw [jsMax_eq]; exact le_max_left _ _) hmax
    · rcases List.mem_cons.mp h2 with h3 | h4
      · subst h3
        exact le_trans (by rw [jsMax_eq]; exact le_max_right _ _) hmax
      · exact ih (jsMax t u) x (List.mem_cons_of_mem _ h4)

/-! ## The sorted distinct day list -/

theorem mem_insertDay : ∀ (l : List Int) (d x : Int), x ∈ insertDay d l ↔ x = d ∨ x ∈ l := by
  intro l
  induction l with
  | nil =>
    intro d x
    simp [insertDay]
  | cons y l ih =>
    intro d x
    rw [insertDay]
    by_cases h1 : d < y
    · rw [if_pos h1]
      simp
    · rw [if_neg h1]
      by_cases h2 : d = y
      · rw [if_pos h2]
        subst h2
        simp only [List.mem_cons]
        tauto
      · rw [if_neg h2]
        simp only [List.mem_cons, ih]
        tauto

theorem insertDay_pairwise : ∀ (l : List Int) (d : Int), l.Pairwise (· < ·) →
    (insertDay d l).Pairwise (· < ·) := by
  intro l
  induction l with
  | nil =>
    intro d _
    exact List.pairwise_singleton _ _
  | cons y l ih =>
    intro d hp
    rw [List.pairwise_cons] at hp
    rw [insertDay]
    by_cases h1 : d < y
    · rw [if_pos h1, List.pairwise_cons]
      refine ⟨?_, List.pairwise_cons.mpr hp⟩
      intro b hb
      rcases List.mem_cons.mp hb with h | h
      · exact h ▸ h1
      · exact lt_trans h1 (hp.1 b h)
    · rw [if_neg h1]
      by_cases h2 : d = y
      · rw [if_pos h2]
        exact List.pairwise_cons.mpr hp
      · rw [if_neg h2, List.pairwise_cons]
        have hyd : y < d := by omega
        refine ⟨?_, ih d hp.2⟩
        intro b hb
        rcases (mem_insertDay l d b).mp hb with h | h
        · exact h ▸ hyd
        · exact hp.1 b h

theorem daysOf_pairwise (forecastList : List ForecastEntry) (tz : Int) :
    (daysOf forecastList tz).Pairwise (· < ·) := by
  rw [daysOf]
  have hgen : ∀ (l : List ForecastEntry) (acc : List Int), acc.Pairwise (· < ·) →
      (l.foldl (fun acc f => insertDay (dayOf f tz) acc) acc).Pairwise (· < ·) := by
    intro l
    induction l with
    | nil => intro acc h; exact h
    | cons f l ih =>
      intro acc h
      exact ih _ (insertDay_pairwise acc (dayOf f tz) h)
  exact hgen forecastList [] List.Pairwise.nil

theorem daysOf_mem {forecastList : List ForecastEntry} {tz d : Int}
    (h : d ∈ daysOf forecastList tz) : ∃ f ∈ forecastList, dayOf f tz = d := by
  rw [daysOf] at h
  have hgen : ∀ (l : List ForecastEntry) (acc : List Int),
      d ∈ l.foldl (fun acc f => insertDay (dayOf f tz) acc) acc →
      d ∈ acc ∨ ∃ f ∈ l, dayOf f tz = d := by
    intro l
    induction l with
    | nil => intro acc h; exact Or.inl h
    | cons g l ih =>
      intro acc h
      rcases ih _ h with h1 | h2
      · rcases (mem_insertDay acc (dayOf g tz) d).mp h1 with h3 | h4
        · exact Or.inr ⟨g, List.mem_cons_self _ _, h3.symm⟩
        · exact Or.inl h4
      · obtain ⟨f, hf, hd⟩ := h2
        exact Or.inr ⟨f, List.mem_cons_of_mem _ hf, hd⟩
  rcases hgen forecastList [] h with h1 | h2
  · exact absurd h1 (List.not_mem_nil d)
  · exact h2

/-! ## First-minimiser characterisation of the strict-improvement folds -/

/-- Running-best with strict improvement, started at `c`: the result minimises
`nd` over `c :: l`, and when it beats `c` it is the first entry of `l` doing
so among equals. -/
theorem runBest_some_spec {α : Type} (nd : α → Nat) :
    ∀ (l : List α) (c : α), ∃ e, runBest nd (some c) l = some e ∧ nd e ≤ nd c ∧
      (∀ f ∈ l, nd e ≤ nd f) ∧
      (e = c ∨ ∃ l1 l2, l = l1 ++ e :: l2 ∧ nd e < nd c ∧ ∀ f ∈ l1, nd e < nd f) := by
  intro l
  induction l with
  | nil =>
    intro c
    exact ⟨c, rfl, Nat.le_refl _, by simp, Or.inl rfl⟩
  | cons g l ih =>
    intro c
    by_cases h : nd g < nd c
    · obtain ⟨e, hrun, hle, hall, hcase⟩ := ih g
      refine ⟨e, ?_, ?_, ?_, ?_⟩
      · rw [runBest, if_pos h]
        exact hrun
      · exact le_trans hle (Nat.le_of_lt h)
      · intro f hf
        rcases List.mem_cons.mp hf with h1 | h2
        · exact h1 ▸ hle
        · exact hall f h2
      · right
        rcases hcase with heg | ⟨l1, l2, hsplit, hlt, hfst⟩
        · subst heg
          exact ⟨[], l, rfl, h, by simp⟩
        · refine ⟨g :: l1, l2, by rw [hsplit]; rfl, lt_trans hlt h, ?_⟩
          intro f hf
          rcases List.mem_cons.mp hf with h1 | h2
          · exact h1 ▸ hlt
          · exact hfst f h2
    · obtain ⟨e, hrun, hle, hall, hcase⟩ := ih c
      have hcg : nd c ≤ nd g := Nat.le_of_not_lt h
      refine ⟨e, ?_, hle, ?_, ?_⟩
      · rw [runBest, if_neg h]
        exact hrun
      · intro f hf
        rcases List.mem_cons.mp hf with h1 | h2
        · exact h1 ▸ le_trans hle hcg
        · exact hall f h2
      · rcases hcase with heg | ⟨l1, l2, hsplit, hlt, hfst⟩
        · exact Or.inl heg
        · refine Or.inr ⟨g :: l1, l2, by rw [hsplit]; rfl, hlt, ?_⟩
          intro f hf
          rcases List.mem_cons.mp hf with h1 | h2
          · exact h1 ▸ lt_of_lt_of_le hlt hcg
          · exact hfst f h2

/-- The `reduce`-style fold from a `null` seed picks the first entry achieving
the minimal distance: it splits the list around the chosen entry, every entry
weakly after it has larger-or-equal distance, every entry strictly before it
has strictly larger distance. -/
theorem runBest_firstArgmin {α : Type} (nd : α → Nat) (l : List α) (hne : l ≠ []) :
    ∃ l1 e l2, l = l1 ++ e :: l2 ∧ runBest nd none l = some e ∧
      (∀ f ∈ l, nd e ≤ nd f) ∧ ∀ f ∈ l1, nd e < nd f := by
  cases l with
  | nil => exact absurd rfl hne
  | cons g l =>
    obtain ⟨e, hrun, hle, hall, hcase⟩ := runBest_some_spec nd l g
    have hrun2 : runBest nd none (g :: l) = some e := by
      rw [runBest]
      exact hrun
    rcases hcase with heg | ⟨l1, l2, hsplit, hlt, hfst⟩
    · subst heg
      refine ⟨[], e, l, rfl, hrun2, ?_, by simp⟩
      intro f hf
      rcases List.mem_cons.mp hf with h1 | h2
      · exact h1 ▸ Nat.le_refl _
      · exact hall f h2
    · refine ⟨g :: l1, e, l2, by rw [hsplit]; rfl, hrun2, ?_, ?_⟩
      · intro f hf
        rcases List.mem_cons.mp hf with h1 | h2
        · exact h1 ▸ hle
        · exact hall f h2
      · intro f hf
        rcases List.mem_cons.mp hf with h1 | h2
        · exact h1 ▸ hlt
        · exact hfst f h2

/-- The noon-selection fold tracks exactly the running best entry of the
generic fold (its weather and its distance). -/
theorem noonGo_runBest (tz : Int) :
    ∀ (fs : List ForecastEntry) (c e : ForecastEntry),
      runBest (ndist tz) (some c) fs = some e →
      noonGo tz fs (c.weather, some (ndist tz c)) = (e.weather, some (ndist tz e)) := by
  intro fs
  induction fs with
  | nil =>
    intro c e h
    rw [runBest] at h
    cases h
    rfl
  | cons g fs ih =>
    intro c e h
    rw [runBest] at h
    by_cases hlt : ndist tz g < ndist tz c
    · rw [if_pos hlt] at h
      rw [noonGo]
      simp only [if_pos hlt]
      exact ih g e h
    · rw [if_neg hlt] at h
      rw [noonGo]
      simp only [if_neg hlt]
      exact ih c e h

/-- The representative weather of a nonempty day bucket comes from the first
entry achieving the minimal distance to local noon. -/
theorem noonWeather_spec (tz : Int) (fs : List ForecastEntry) (hne : fs ≠ []) :
    ∃ l1 e l2, fs = l1 ++ e :: l2 ∧ (noonGo tz fs (none, none)).1 = e.weather ∧
      (∀ f ∈ fs, ndist tz e ≤ ndist tz f) ∧ ∀ f ∈ l1, ndist tz e < ndist tz f := by
  obtain ⟨l1, e, l2, hsplit, hrun, hall, hfst⟩ := runBest_firstArgmin (ndist tz) fs hne
  refine ⟨l1, e, l2, hsplit, ?_, hall, hfst⟩
  cases fs with
  | nil => exact absurd rfl hne
  | cons g fs =>
    rw [runBest] at hrun
    rw [noonGo]
    rw [noonGo_runBest tz fs g e hrun]

/-! ## Claims C1, C6, C7, C10 -/

/-- Claim C1, counterexample.  With the credential absent (`apiKey = ""`),
`searchCities` does not return an empty list: `ensureApiKey()` runs before the
`try/catch`, so the call fails with the credential-missing error even though
the network fetch would have succeeded. -/
theorem searchCities_missingKey_cex :
    searchCities "" "London" 5 (Except.ok []) = Except.error "API key is missing" ∧
      searchCities "" "London" 5 (Except.ok []) ≠ Except.ok [] := by
  constructor
  · rfl
  · intro h
    simp [searchCities] at h

/-- Claim C1, amended.  For every query and limit, `searchCities` with an
absent credential fails with the credential-missing error before any network
activity; the degradation to an empty result list applies only to fetch
failures occurring after the credential check succeeded. -/
theorem searchCities_missingKey (query : String) (limit : Nat)
    (fetchResult : Except String (List GeoLocation)) :
    searchCities "" query limit fetchResult = Except.error API_KEY_ERROR_MESSAGE ∧
      (∀ apiKey msg, apiKey ≠ "" →
        searchCities apiKey query limit (Except.error msg) = Except.ok []) := by
  constructor
  · rfl
  · intro apiKey msg h
    simp only [searchCities, if_neg h]
    split <;> rfl

/-- Witness for `searchCities_missingKey` at a concrete query and fetch
outcome. -/
theorem searchCities_missingKey_witness :
    searchCities "" "London" 5 (Except.ok [⟨1, 2, "London", "GB", none⟩]) =
        Except.error API_KEY_ERROR_MESSAGE ∧
      searchCities "k" "London" 5 (Except.error "network down") = Except.ok [] :=
  ⟨(searchCities_missingKey "London" 5 (Except.ok [⟨1, 2, "London", "GB", none⟩])).1,
    (searchCities_missingKey "London" 5 (Except.ok [])).2 "k" "network down" (by decide)⟩

/-- Claim C6.  Adding a city whose `(lat, lon)` already occurs in the stored
favorites raises the already-in-favorites error and leaves the persisted list
unchanged; consequently `addFavoriteCity` preserves the no-duplicate-coordinate
invariant of the stored list. -/
theorem addFavoriteCity_dup (store : List FavCity) (c : CityData) (newId addedAt : String) :
    ((∃ x ∈ store, x.lat = c.lat ∧ x.lon = c.lon) →
        addFavoriteCity store c newId addedAt =
          (Except.error "This city is already in your favorites", store)) ∧
      (NoDupCoords store → NoDupCoords (addFavoriteCity store c newId addedAt).2) := by
  constructor
  · intro hdup
    have hany : (store.any fun x => decide (x.lat = c.lat ∧ x.lon = c.lon)) = true := by
      rw [List.any_eq_true]
      obtain ⟨x, hx, hlat, hlon⟩ := hdup
      exact ⟨x, hx, by simp [hlat, hlon]⟩
    simp only [addFavoriteCity, hany, if_true]
  · intro hnd
    by_cases hany : (store.any fun x => decide (x.lat = c.lat ∧ x.lon = c.lon)) = true
    · simp only [addFavoriteCity, hany, if_true]
      exact hnd
    · have hnot : ∀ x ∈ store, ¬(x.lat = c.lat ∧ x.lon = c.lon) := by
        intro x hx hcontra
        exact hany (List.any_eq_true.mpr ⟨x, hx, by simp [hcontra.1, hcontra.2]⟩)
      have hpost : (addFavoriteCity store c newId addedAt).2 =
          store ++ [⟨newId, c.lat, c.lon, c.name, c.country, c.state, addedAt⟩] := by
        simp only [addFavoriteCity]
        rw [if_neg hany]
      rw [hpost, NoDupCoords, List.pairwise_append]
      refine ⟨hnd, List.pairwise_singleton _ _, ?_⟩
      intro a ha b hb
      simp only [List.mem_singleton] at hb
      subst hb
      exact hnot a ha


/-- Witness for `addFavoriteCity_dup`: a concrete store already containing the
coordinates being added. -/
theorem addFavoriteCity_dup_witness :
    addFavoriteCity [⟨"id1", 1, 2, "Paris", "FR", none, "t0"⟩]
        ⟨1, 2, "Paris", "FR", none⟩ "id2" "t1" =
      (Except.error "This city is already in your favorites",
        [⟨"id1", 1, 2, "Paris", "FR", none, "t0"⟩]) ∧
      NoDupCoords (addFavoriteCity [⟨"id1", 1, 2, "Paris", "FR", none, "t0"⟩]
        ⟨3, 4, "Lyon", "FR", none⟩ "id2" "t1").2 :=
  ⟨(addFavoriteCity_dup [⟨"id1", 1, 2, "Paris", "FR", none, "t0"⟩]
      ⟨1, 2, "Paris", "FR", none⟩ "id2" "t1").1
      ⟨⟨"id1", 1, 2, "Paris", "FR", none, "t0"⟩, by decide, by decide, by decide⟩,
    (addFavoriteCity_dup [⟨"id1", 1, 2, "Paris", "FR", none, "t0"⟩]
      ⟨3, 4, "Lyon", "FR", none⟩ "id2" "t1").2
      (by rw [NoDupCoords]; exact List.pairwise_singleton _ _)⟩

/-- Claim C7.  One `addToSearchHistory` step caps the stored history at 5,
puts the new identifier first, removes any prior occurrence of the same
string, and preserves duplicate-freedom; and a whole sequence of additions of
distinct identifiers starting from the empty history yields exactly the most
recent five, newest first. -/
theorem addToSearchHistory_spec :
    (∀ prev ident,
        (addToSearchHistory prev ident).length ≤ 5 ∧
        (addToSearchHistory prev ident).head? = some ident ∧
        (∀ s ∈ (addToSearchHistory prev ident).tail, s ≠ ident) ∧
        (prev.Nodup → (addToSearchHistory prev ident).Nodup)) ∧
      (∀ adds : List String, adds.Nodup →
        adds.foldl addToSearchHistory [] = adds.reverse.take 5) := by
  have htail : ∀ (prev : List String) (ident : String),
      addToSearchHistory prev ident =
        ident :: (prev.filter (fun s => s ≠ ident)).take 4 := by
    intro prev ident
    simp [addToSearchHistory, MAX_HISTORY_ITEMS]
  constructor
  · intro prev ident
    refine ⟨List.length_take_le _ _, ?_, ?_, ?_⟩
    · rw [htail]; rfl
    · rw [htail]
      intro s hs
      have hs' : s ∈ prev.filter (fun s => s ≠ ident) :=
        List.take_sublist 4 _ |>.subset hs
      have := (List.mem_filter.mp hs').2
      simpa using this
    · intro hnd
      rw [htail, List.nodup_cons]
      constructor
      · intro hmem
        have hs' : ident ∈ prev.filter (fun s => s ≠ ident) :=
          List.take_sublist 4 _ |>.subset hmem
        have := (List.mem_filter.mp hs').2
        simp at this
      · exact (List.take_sublist 4 _).nodup (hnd.filter _)
  · intro adds
    induction adds using List.reverseRecOn with
    | nil => intro _; rfl
    | append_singleton l a ih =>
      intro hnd
      have hla : l.Nodup ∧ a ∉ l := by
        rw [List.nodup_append] at hnd
        exact ⟨hnd.1, fun h => hnd.2.2 h (List.mem_singleton.mpr rfl)⟩
      rw [List.foldl_append, ih hla.1]
      simp only [List.foldl_cons, List.foldl_nil]
      rw [htail]
      have hnomem : a ∉ l.reverse.take 5 := fun h =>
        hla.2 (by simpa using List.take_sublist 5 _ |>.subset h)
      have hfilter : (l.reverse.take 5).filter (fun s => s ≠ a) = l.reverse.take 5 := by
        rw [List.filter_eq_self]
        intro b hb
        have hba : b ≠ a := fun hba => hnomem (hba ▸ hb)
        simpa using hba
      rw [hfilter, List.take_take, List.reverse_append]
      simp

/-- Witness for `addToSearchHistory_spec`: six distinct cities keep only the
most recent five, newest first, and one step on a duplicate-free store stays
duplicate-free. -/
theorem addToSearchHistory_spec_witness :
    List.foldl addToSearchHistory [] ["c1", "c2", "c3", "c4", "c5", "c6"] =
        ["c6", "c5", "c4", "c3", "c2"] ∧
      (addToSearchHistory ["a", "b"] "b").Nodup :=
  ⟨(addToSearchHistory_spec.2 ["c1", "c2", "c3", "c4", "c5", "c6"] (by decide)).trans (by decide),
    (addToSearchHistory_spec.1 ["a", "b"] "b").2.2.2 (by decide)⟩

/-- Claim C10.  `removeFavoriteCity` throws the not-found error and leaves the
persisted list untouched when no stored entry carries the id; when at least
one entry carries the id, it saves a list in which exactly the entries with
that id are gone: the saved list is a sublist of the store (original order
preserved), no surviving entry carries the id, and every entry with a
different id survives. -/
theorem removeFavoriteCity_spec (store : List FavCity) (cityId : String) :
    ((∀ x ∈ store, x.id ≠ cityId) →
        removeFavoriteCity store cityId = (Except.error "City not found in favorites", store)) ∧
      ((∃ x ∈ store, x.id = cityId) →
        (removeFavoriteCity store cityId).1 = Except.ok () ∧
        (removeFavoriteCity store cityId).2.Sublist store ∧
        (∀ x ∈ (removeFavoriteCity store cityId).2, x.id ≠ cityId) ∧
        (∀ x ∈ store, x.id ≠ cityId → x ∈ (removeFavoriteCity store cityId).2)) := by
  constructor
  · intro hall
    have hlen : (store.filter (fun c => c.id ≠ cityId)).length = store.length := by
      rw [List.filter_length_eq_length]
      intro x hx
      simpa using hall x hx
    simp only [removeFavoriteCity, hlen, if_true]
  · intro hex
    have hlt : (store.filter (fun c => c.id ≠ cityId)).length < store.length := by
      rcases hex with ⟨x, hx, hid⟩
      rcases Nat.lt_or_ge (store.filter (fun c => c.id ≠ cityId)).length store.length with h | h
      · exact h
      · exfalso
        have heq : (store.filter (fun c => c.id ≠ cityId)).length = store.length :=
          Nat.le_antisymm (List.length_filter_le _ _) h
        have := (List.filter_length_eq_length.mp heq) x hx
        simp [hid] at this
    have hne : ¬((store.filter (fun c => c.id ≠ cityId)).length = store.length) :=
      Nat.ne_of_lt hlt
    have hres : removeFavoriteCity store cityId =
        (Except.ok (), store.filter (fun c => c.id ≠ cityId)) := by
      simp only [removeFavoriteCity]
      rw [if_neg hne]
    rw [hres]
    refine ⟨rfl, List.filter_sublist _, ?_, ?_⟩
    · intro x hx
      have := (List.mem_filter.mp hx).2
      simpa using this
    · intro x hx hid
      exact List.mem_filter.mpr ⟨hx, by simpa using hid⟩

/-- Witness for `removeFavoriteCity_spec`: a concrete miss and a concrete hit. -/
theorem removeFavoriteCity_spec_witness :
    removeFavoriteCity [⟨"idA", 1, 2, "Paris", "FR", none, "t0"⟩] "idB" =
        (Except.error "City not found in favorites",
          [⟨"idA", 1, 2, "Paris", "FR", none, "t0"⟩]) ∧
      (removeFavoriteCity [⟨"idA", 1, 2, "Paris", "FR", none, "t0"⟩] "idA").1 = Except.ok () :=
  ⟨(removeFavoriteCity_spec [⟨"idA", 1, 2, "Paris", "FR", none, "t0"⟩] "idB").1
      (by decide),
    ((removeFavoriteCity_spec [⟨"idA", 1, 2, "Paris", "FR", none, "t0"⟩] "idA").2
      ⟨⟨"idA", 1, 2, "Paris", "FR", none, "t0"⟩, by decide, by decide⟩).1⟩

/-! ## Claims C2, C3, C4 -/

/-- Claim C2, counterexample.  A day whose entries carry the numeric main
temperatures `0`, `15` and `12` yields `minTemp = 12`, not `round (min 0 15
12) = 0`: the JS `forecast.main?.temp || forecast.temp` fallback is falsy on
the numeric temperature `0`, so that entry contributes no sample, refuting the
claim that every entry carrying a numeric temperature contributes one. -/
theorem fiveDay_zeroTemp_cex :
    fiveDayForecast [⟨0, some 0, none, none, some 1⟩, ⟨10800, some 15, none, none, some 2⟩,
        ⟨21600, some 12, none, none, some 3⟩] 0 0 = [⟨0, 12, 15, 0, some 3⟩] ∧
      (fiveDayForecast [⟨0, some 0, none, none, some 1⟩, ⟨10800, some 15, none, none, some 2⟩,
          ⟨21600, some 12, none, none, some 3⟩] 0 0).map (fun o => o.minTemp) ≠
        [jsRound (0 : Rat)] := by
  constructor
  · decide
  · decide

/-- Claim C2, amended.  For every day of the output, `minTemp` and `maxTemp`
are the rounded minimum and rounded maximum over the temperature samples of
that day, where an entry contributes the sample `tempSample` produces under
the JS truthiness fallback (its `main.temp` when present and nonzero,
otherwise its top-level `temp` when present); a day with samples
`[10, 15, 12]` therefore yields `minTemp = 10` and `maxTemp = 15`, and a day
with no samples reports `0` for both. -/
theorem fiveDay_minmax (forecastList : List ForecastEntry) (tz today : Int) (o : DayForecast)
    (ho : o ∈ fiveDayForecast forecastList tz today) :
    (dayTemps forecastList tz o.day = [] → o.minTemp = 0 ∧ o.maxTemp = 0) ∧
      (∀ t0 ts, dayTemps forecastList tz o.day = t0 :: ts →
        ∃ tmin tmax, tmin ∈ t0 :: ts ∧ tmax ∈ t0 :: ts ∧
          (∀ t ∈ t0 :: ts, tmin ≤ t ∧ t ≤ tmax) ∧
          o.minTemp = jsRound tmin ∧ o.maxTemp = jsRound tmax) := by
  obtain ⟨d, rfl, hd, htoday⟩ := fiveDay_elim ho
  simp only [mkDay_day]
  constructor
  · intro hnil
    rw [mkDay_minTemp, mkDay_maxTemp, hnil]
    exact ⟨rfl, rfl⟩
  · intro t0 ts hcons
    refine ⟨ts.foldl jsMin t0, ts.foldl jsMax t0, foldl_jsMin_mem ts t0,
      foldl_jsMax_mem ts t0, ?_, ?_, ?_⟩
    · intro t ht
      exact ⟨foldl_jsMin_le ts t0 t ht, foldl_jsMax_ge ts t0 t ht⟩
    · rw [mkDay_minTemp, hcons]
    · rw [mkDay_maxTemp, hcons]

/-- Witness for `fiveDay_minmax`: a single day with temperature samples
`[10, 15, 12]` (at hours 9, 12 and 15), whose output entry is
`minTemp = 10, maxTemp = 15`. -/
theorem fiveDay_minmax_witness :
    (∃ tmin tmax, tmin ∈ [(10 : Rat), 15, 12] ∧ tmax ∈ [(10 : Rat), 15, 12] ∧
        (∀ t ∈ [(10 : Rat), 15, 12], tmin ≤ t ∧ t ≤ tmax) ∧
        (⟨0, 10, 15, 0, some 2⟩ : DayForecast).minTemp = jsRound tmin ∧
        (⟨0, 10, 15, 0, some 2⟩ : DayForecast).maxTemp = jsRound tmax) ∧
      fiveDayForecast [⟨32400, some 10, none, none, some 1⟩, ⟨43200, some 15, none, none, some 2⟩,
          ⟨54000, some 12, none, none, some 3⟩] 0 0 = [⟨0, 10, 15, 0, some 2⟩] :=
  ⟨(fiveDay_minmax
      [⟨32400, some 10, none, none, some 1⟩, ⟨43200, some 15, none, none, some 2⟩,
        ⟨54000, some 12, none, none, some 3⟩] 0 0 ⟨0, 10, 15, 0, some 2⟩ (by decide)).2
      10 [15, 12] (by decide),
    by decide⟩

/-- Claim C3.  The representative weather of every output day comes from the
entry of that day whose local hour is closest to noon, ties broken in favour
of the first entry achieving the minimal distance (the running best is only
replaced on strict improvement): the bucket splits as `l1 ++ e :: l2` where
`e` supplies the weather, `e` minimises the distance over the whole bucket,
and everything before `e` has strictly greater distance. -/
theorem fiveDay_noonIcon (forecastList : List ForecastEntry) (tz today : Int) (o : DayForecast)
    (ho : o ∈ fiveDayForecast forecastList tz today) :
    ∃ l1 e l2, dayEntries forecastList tz o.day = l1 ++ e :: l2 ∧ o.weather = e.weather ∧
      (∀ f ∈ dayEntries forecastList tz o.day, ndist tz e ≤ ndist tz f) ∧
      ∀ f ∈ l1, ndist tz e < ndist tz f := by
  obtain ⟨d, rfl, hd, htoday⟩ := fiveDay_elim ho
  simp only [mkDay_day]
  obtain ⟨f0, hf0, hdayOf⟩ := daysOf_mem hd
  have hne : dayEntries forecastList tz d ≠ [] := by
    intro h0
    have hmem : f0 ∈ dayEntries forecastList tz d :=
      List.mem_filter.mpr ⟨hf0, by simp [hdayOf]⟩
    rw [h0] at hmem
    exact absurd hmem (List.not_mem_nil f0)
  obtain ⟨l1, e, l2, hsplit, hw, hall, hfst⟩ :=
    noonWeather_spec tz (dayEntries forecastList tz d) hne
  exact ⟨l1, e, l2, hsplit, by rw [mkDay_weather]; exact hw, hall, hfst⟩

/-- Witness for `fiveDay_noonIcon`: a day with entries at hours 9, 12 and 15
uses the hour-12 entry (the output weather is `some 2`, the marker of the
noon entry). -/
theorem fiveDay_noonIcon_witness :
    (∃ l1 e l2,
      dayEntries [⟨32400, some 10, none, none, some 1⟩, ⟨43200, some 15, none, none, some 2⟩,
          ⟨54000, some 12, none, none, some 3⟩] 0 (⟨0, 10, 15, 0, some 2⟩ : DayForecast).day =
        l1 ++ e :: l2 ∧
      (⟨0, 10, 15, 0, some 2⟩ : DayForecast).weather = e.weather ∧
      (∀ f ∈ dayEntries [⟨32400, some 10, none, none, some 1⟩,
          ⟨43200, some 15, none, none, some 2⟩, ⟨54000, some 12, none, none, some 3⟩] 0
          (⟨0, 10, 15, 0, some 2⟩ : DayForecast).day, ndist 0 e ≤ ndist 0 f) ∧
      ∀ f ∈ l1, ndist 0 e < ndist 0 f) ∧
      (fiveDayForecast [⟨32400, some 10, none, none, some 1⟩,
          ⟨43200, some 15, none, none, some 2⟩, ⟨54000, some 12, none, none, some 3⟩] 0 0).map
        (fun o => o.weather) = [some 2] :=
  ⟨fiveDay_noonIcon
      [⟨32400, some 10, none, none, some 1⟩, ⟨43200, some 15, none, none, some 2⟩,
        ⟨54000, some 12, none, none, some 3⟩] 0 0 ⟨0, 10, 15, 0, some 2⟩ (by decide),
    by decide⟩

/-- Claim C4.  For every forecast list, timezone and `today`: the output of
the five-day aggregation has at most 5 entries, contains no day strictly
before `today`, and its entries are strictly increasing by date. -/
theorem fiveDay_shape (forecastList : List ForecastEntry) (tz today : Int) :
    (fiveDayForecast forecastList tz today).length ≤ 5 ∧
      (∀ o ∈ fiveDayForecast forecastList tz today, today ≤ o.day) ∧
      (fiveDayForecast forecastList tz today).Pairwise (fun a b => a.day < b.day) := by
  refine ⟨?_, ?_, ?_⟩
  · rw [fiveDayForecast, List.length_map]
    exact List.length_take_le 5 _
  · intro o ho
    obtain ⟨d, rfl, _, htoday⟩ := fiveDay_elim ho
    rw [mkDay_day]
    exact htoday
  · rw [fiveDayForecast]
    have hp : ((daysOf forecastList tz).filter (fun d => today ≤ d)).Pairwise (· < ·) :=
      List.Pairwise.sublist (List.filter_sublist _) (daysOf_pairwise forecastList tz)
    have hp2 : (((daysOf forecastList tz).filter (fun d => today ≤ d)).take 5).Pairwise
        (· < ·) := List.Pairwise.sublist (List.take_sublist 5 _) hp
    exact List.pairwise_map.mpr hp2

/-- Witness for `fiveDay_shape` at a concrete forecast list. -/
theorem fiveDay_shape_witness :
    (fiveDayForecast [⟨32400, some 10, none, none, some 1⟩] 0 0).length ≤ 5 ∧
      (∀ o ∈ fiveDayForecast [⟨32400, some 10, none, none, some 1⟩] 0 0, (0 : Int) ≤ o.day) ∧
      (fiveDayForecast [⟨32400, some 10, none, none, some 1⟩] 0 0).Pairwise
        (fun a b => a.day < b.day) :=
  fiveDay_shape [⟨32400, some 10, none, none, some 1⟩] 0 0

/-! ## Claim C5 -/

/-- `jsRound` of a nonnegative number is nonnegative. -/
theorem jsRound_nonneg {x : Rat} (h : 0 ≤ x) : 0 ≤ jsRound x := by
  rw [jsRound_eq]
  exact Int.le_floor.mpr (by push_cast; linarith)

/-- `jsRound` of a number at most 100 is at most 100. -/
theorem jsRound_le_100 {x : Rat} (h : x ≤ 100) : jsRound x ≤ 100 := by
  rw [jsRound_eq]
  have h1 : ((⌊x + 1/2⌋ : Int) : Rat) ≤ x + 1/2 := Int.floor_le _
  have h2 : ((⌊x + 1/2⌋ : Int) : Rat) < ((101 : Int) : Rat) := by push_cast; linarith
  have h3 : ⌊x + 1/2⌋ < 101 := by exact_mod_cast h2
  omega

/-- Evaluation of the concrete probability of the C5 scenario. -/
theorem pop42_eval : (0.42 : Rat) * 100 = 42 := by norm_num

/-- Bounds of the concrete probability of the C5 scenario. -/
theorem pop42_bounds : 0 ≤ (0.42 : Rat) ∧ (0.42 : Rat) ≤ 1 := by norm_num

/-- Claim C5.  `rainChance` selects the forecast entry whose timestamp is
closest to `now` (strict improvement, so the first entry achieving the
minimal distance wins ties); if that entry carries a `pop` it answers
`round (pop * 100)`, otherwise `10` when the current conditions carry a rain
object and `0` otherwise; and given every `pop` in `[0, 1]` the result is an
integer in `0..100`. -/
theorem rainChance_spec (current : CurrentConditions) (daily : List ForecastEntry) (now : Int)
    (hpop : ∀ f ∈ daily, ∀ p, f.pop = some p → 0 ≤ p ∧ p ≤ 1) :
    (0 ≤ rainChance current daily now ∧ rainChance current daily now ≤ 100) ∧
      (daily = [] → rainChance current daily now = if current.rain then 10 else 0) ∧
      (daily ≠ [] → ∃ l1 e l2, daily = l1 ++ e :: l2 ∧
        (∀ f ∈ daily, tdist now e ≤ tdist now f) ∧
        (∀ f ∈ l1, tdist now e < tdist now f) ∧
        ((∃ p, e.pop = some p ∧ rainChance current daily now = jsRound (p * 100)) ∨
          (e.pop = none ∧
            rainChance current daily now = if current.rain then 10 else 0))) := by
  by_cases hne : daily = []
  · subst hne
    have hval : rainChance current [] now = if current.rain then 10 else 0 := rfl
    refine ⟨?_, fun _ => hval, fun h => absurd rfl h⟩
    rw [hval]
    by_cases hr : current.rain <;> simp [hr]
  · obtain ⟨l1, e, l2, hsplit, hrun, hall, hfst⟩ := runBest_firstArgmin (tdist now) daily hne
    have hmem : e ∈ daily := by
      rw [hsplit]
      exact List.mem_append.mpr (Or.inr (List.mem_cons_self _ _))
    cases hp : e.pop with
    | some p =>
      have hval : rainChance current daily now = jsRound (p * 100) := by
        simp only [rainChance, hrun, hp]
      obtain ⟨hp0, hp1⟩ := hpop e hmem p hp
      refine ⟨⟨?_, ?_⟩, fun h => absurd h hne,
        fun _ => ⟨l1, e, l2, hsplit, hall, hfst, Or.inl ⟨p, hp, hval⟩⟩⟩
      · rw [hval]
        exact jsRound_nonneg (by positivity)
      · rw [hval]
        exact jsRound_le_100 (by linarith)
    | none =>
      have hval : rainChance current daily now = if current.rain then 10 else 0 := by
        simp only [rainChance, hrun, hp]
      refine ⟨?_, fun h => absurd h hne,
        fun _ => ⟨l1, e, l2, hsplit, hall, hfst, Or.inr ⟨hp, hval⟩⟩⟩
      rw [hval]
      by_cases hr : current.rain <;> simp [hr]

/-- Witness for `rainChance_spec`: a single entry with `pop = 0.42` nearest
to now produces `42`, an integer within `0..100`. -/
theorem rainChance_spec_witness :
    (0 ≤ rainChance ⟨false⟩ [⟨0, none, none, some 0.42, none⟩] 100 ∧
      rainChance ⟨false⟩ [⟨0, none, none, some 0.42, none⟩] 100 ≤ 100) ∧
      rainChance ⟨false⟩ [⟨0, none, none, some 0.42, none⟩] 100 = 42 :=
  ⟨(rainChance_spec ⟨false⟩ [⟨0, none, none, some 0.42, none⟩] 100
      (by
        intro f hf p hp
        rw [List.mem_singleton] at hf
        subst hf
        injection hp with h
        subst h
        exact pop42_bounds)).1,
    by
      rw [show rainChance ⟨false⟩ [⟨0, none, none, some 0.42, none⟩] 100 =
        jsRound ((0.42 : Rat) * 100) from rfl, pop42_eval]
      decide⟩

/-! ## Claims C8, C9 -/

/-- Claim C8.  When a second keystroke arrives strictly before the 300-unit
debounce delay of the first has elapsed, the fetch scheduled by the first
keystroke is cancelled and never issued: the two-keystroke trace produces
exactly one suggestion fetch, for the second query (whatever the first query
was); typing a valid query twice inside the window therefore fetches only the
second one. -/
theorem debounce_spec (t1 t2 : Nat) (q1 q2 : String) (horder : t1 ≤ t2)
    (hwin : t2 < t1 + DEBOUNCE_DELAY) (hq2 : 2 ≤ (jsTrim q2).length) :
    suggestionFetches [(t1, q1), (t2, q2)] = [q2] := by
  have hfired : ¬(t1 + DEBOUNCE_DELAY ≤ t2) := by omega
  have hq2n : ¬((jsTrim q2).length < 2) := by omega
  by_cases hq1 : (jsTrim q1).length < 2 <;>
    simp [suggestionFetches, runKeystrokes, debouncedSearchCities, hq1, hq2n, hfired]

/-- Witness for `debounce_spec`: typing "Lon" and then "London" 100 units
later results in exactly one suggestion fetch, for "London". -/
theorem debounce_spec_witness :
    suggestionFetches [(0, "Lon"), (100, "London")] = ["London"] :=
  debounce_spec 0 100 "Lon" "London" (by decide) (by decide) (by decide)

/-- Claim C9.  `handleCurrentLocation` tries exactly the two configurations
low-accuracy 10s-timeout 300s-cache and high-accuracy 20s-timeout no-cache, in
that order, stops at the first success and fetches weather for the successful
coordinates (the `Except.ok` payload), and when both attempts fail it raises
the second (last) failure.  (The generic multiple-attempts error exists in the
code for the case in which no failure was captured, which cannot arise for a
device that always answers.) -/
theorem handleCurrentLocation_spec (env : GeoOptions → Except String Coords) :
    geolocationAttempts =
        [{ enableHighAccuracy := false, timeout := 10000, maximumAge := 300000 },
         { enableHighAccuracy := true, timeout := 20000, maximumAge := 0 }] ∧
      (∀ c, env { enableHighAccuracy := false, timeout := 10000, maximumAge := 300000 } =
          Except.ok c → handleCurrentLocation env = Except.ok c) ∧
      (∀ e c, env { enableHighAccuracy := false, timeout := 10000, maximumAge := 300000 } =
          Except.error e →
        env { enableHighAccuracy := true, timeout := 20000, maximumAge := 0 } = Except.ok c →
        handleCurrentLocation env = Except.ok c) ∧
      (∀ e1 e2, env { enableHighAccuracy := false, timeout := 10000, maximumAge := 300000 } =
          Except.error e1 →
        env { enableHighAccuracy := true, timeout := 20000, maximumAge := 0 } =
          Except.error e2 →
        handleCurrentLocation env = Except.error e2) := by
  refine ⟨rfl, ?_, ?_, ?_⟩
  · intro c hc
    simp only [handleCurrentLocation, geolocationAttempts, tryAttempts, hc]
  · intro e c he hc
    simp only [handleCurrentLocation, geolocationAttempts, tryAttempts, he, hc]
  · intro e1 e2 he1 he2
    simp only [handleCurrentLocation, geolocationAttempts, tryAttempts, he1, he2]

/-- Witness for `handleCurrentLocation_spec`: the first attempt times out, the
second succeeds at `(51.5, -0.12)`; the weather fetch uses exactly those
coordinates. -/
theorem handleCurrentLocation_spec_witness :
    handleCurrentLocation
        (fun o => if o.enableHighAccuracy then Except.ok ⟨51.5, -0.12⟩
          else Except.error "Location request timed out") =
      Except.ok ⟨51.5, -0.12⟩ :=
  (handleCurrentLocation_spec
      (fun o => if o.enableHighAccuracy then Except.ok ⟨51.5, -0.12⟩
        else Except.error "Location request timed out")).2.2.1
    "Location request timed out" ⟨51.5, -0.12⟩ rfl rfl

end WeatherApp
